import Mathlib

/-!
Shallow embedding of the `Hackernews-top-10` repository
(`hn_top10_daily.py`, `even_numbers.py`, `identify_even_numbers.py`)
and proofs about it.

Machine integers of the source are modelled as `Int` (Python integers are
unbounded), Python strings as `String`, Python `None`-able values as
`Option`, and JSON item records as a structure of optional fields.
Network effects are abstracted: functions that in the source receive the
result of a fetch take that (possibly absent) decoded value as an argument.
-/

namespace HNTop10

/-- A decoded JSON item record, as consumed by `get_item`
(`hn_top10_daily.py` lines 79-91).  Each field models `data.get(key)`:
`none` when the key is absent.  The HN item endpoint documents the fields
`type`, `id`, `title`, `url`, `score`, `by`, `time`, `descendants`. -/
structure ItemRecord where
  type : Option String
  id : Option Int
  title : Option String
  url : Option String
  score : Option Int
  «by» : Option String
  time : Option Int
  descendants : Option Int
deriving DecidableEq, Repr

/-- The `Story` dataclass (`hn_top10_daily.py` lines 46-54).  The source
annotates `id : int`, but Python does not enforce annotations and
`get_item` stores `data.get("id")` there unchecked, which is `None` when
the key is absent; so the embedding gives `id` the type `Option Int`. -/
structure Story where
  id : Option Int
  title : String
  url : Option String
  score : Int
  «by» : String
  time : Int
  descendants : Int
deriving DecidableEq, Repr

/-- Python `str(x)`/`format(x)` on an `int`-annotated value that may be
`None`: an integer renders in decimal, `None` renders as `"None"`. -/
def pyStr : Option Int → String
  | none => "None"
  | some n => toString n

/-- `Story.hn_link` (lines 56-58): `HN_ITEM_URL.format(id=self.id)`. -/
def Story.hn_link (s : Story) : String :=
  "https://news.ycombinator.com/item?id=" ++ pyStr s.id

/-- Python `x or default` for an optional string: `None` and the empty
string are falsy, so both are replaced by the default. -/
def pyOrStr (x : Option String) (dflt : String) : String :=
  match x with
  | none => dflt
  | some s => if s = "" then dflt else s

/-- Python `int(x or 0)` for an optional integer: `None` (and the falsy
`0` itself) become `0`; any other integer passes through. -/
def pyOrInt (x : Option Int) : Int :=
  match x with
  | none => 0
  | some n => n

/-- Python truthiness of a decoded record (`not data`): a dict is falsy
exactly when it is empty, i.e. every modelled key is absent. -/
def recFalsy (d : ItemRecord) : Prop :=
  d = ⟨none, none, none, none, none, none, none, none⟩

instance (d : ItemRecord) : Decidable (recFalsy d) := by
  unfold recFalsy; infer_instance

/-- `get_item` (lines 79-91), with the network fetch abstracted: the
argument is the decoded result of `fetch_json` (`none` on fetch failure).
`if not data or data.get("type") != "story": return None`, otherwise the
`Story` is built with the source's defaults. -/
def get_item (fetched : Option ItemRecord) : Option Story :=
  match fetched with
  | none => none
  | some data =>
    if recFalsy data ∨ data.type ≠ some "story" then none
    else some {
      id := data.id
      title := pyOrStr data.title "(no title)"
      url := data.url
      score := pyOrInt data.score
      «by» := pyOrStr data.«by» "unknown"
      time := pyOrInt data.time
      descendants := pyOrInt data.descendants }

/-- Python slicing `s[:k]` for an arbitrary integer bound `k`: a
non-negative `k` keeps the first `k` characters, a negative `k` keeps
`max (len s + k) 0` characters. -/
def pySliceTo (s : String) (k : Int) : String :=
  if 0 ≤ k then (s.data.take k.toNat).asString
  else (s.data.take ((s.length : Int) + k).toNat).asString

/-- `human_trunc` (lines 93-95): `s if len(s) <= max_len else
s[:max_len - 1] + "…"`.  (`s = s or ""` is the identity on actual
strings and is dropped.) -/
def human_trunc (s : String) (max_len : Int) : String :=
  if (s.length : Int) ≤ max_len then s else pySliceTo s (max_len - 1) ++ "…"

/-! ### The even-number scripts -/

/-- `is_even` (identical in `even_numbers.py` lines 1-3 and
`identify_even_numbers.py` lines 1-11): `number % 2 == 0`.  Python `%`
with a positive modulus agrees with `Int.emod`, which is Lean's `%`. -/
def is_even (number : Int) : Bool := number % 2 == 0

/-- `find_even_numbers` (`even_numbers.py` lines 6-8):
`[num for num in numbers if num % 2 == 0]`. -/
def find_even_numbers (numbers : List Int) : List Int :=
  numbers.filter (fun num => num % 2 == 0)

/-- `identify_even_numbers` (`identify_even_numbers.py` lines 14-24):
`[num for num in numbers if is_even(num)]`. -/
def identify_even_numbers (numbers : List Int) : List Int :=
  numbers.filter (fun num => is_even num)

/-! ### Timestamp rendering

`Story.created_at_ist` (lines 60-63) converts the epoch timestamp to
Asia/Kolkata civil time and renders `strftime("%Y-%m-%d %H:%M:%S %Z")`.
Asia/Kolkata has had the fixed offset UTC+5:30 (and abbreviation `IST`)
for the whole epoch era, so the conversion adds 19800 seconds and the
`%Z` field renders as `IST`. -/

/-- Proleptic-Gregorian civil date `(year, month, day)` of a day count
relative to 1970-01-01 (Howard Hinnant's `civil_from_days`; `Int./` is
floor division, so no sign adjustment is needed). -/
def civilFromDays (z : Int) : Int × Int × Int :=
  let z' := z + 719468
  let era := z' / 146097
  let doe := z' % 146097
  let yoe := (doe - doe / 1460 + doe / 36524 - doe / 146096) / 365
  let doy := doe - (365 * yoe + yoe / 4 - yoe / 100)
  let mp := (5 * doy + 2) / 153
  let d := doy - (153 * mp + 2) / 5 + 1
  let m := mp + (if mp < 10 then 3 else -9)
  (yoe + era * 400 + (if m ≤ 2 then 1 else 0), m, d)

/-- Two-digit zero padding, as in `strftime`'s `%m %d %H %M %S`. -/
def pad2 (n : Int) : String :=
  if n < 10 then "0" ++ toString n else toString n

/-- `strftime("%Y-%m-%d %H:%M:%S %Z")` of an epoch second in
Asia/Kolkata (UTC+5:30, rendered `IST`). -/
def format_ist (t : Int) : String :=
  let loc := t + 19800
  let ymd := civilFromDays (loc / 86400)
  let secs := loc % 86400
  toString ymd.1 ++ "-" ++ pad2 ymd.2.1 ++ "-" ++ pad2 ymd.2.2 ++ " " ++
    pad2 (secs / 3600) ++ ":" ++ pad2 (secs % 3600 / 60) ++ ":" ++
    pad2 (secs % 60) ++ " IST"

/-- `Story.created_at_ist` (lines 60-63). -/
def Story.created_at_ist (s : Story) : String := format_ist s.time

/-! ### The collector (lines 97-117) -/

/-- The sort key of line 116: `lambda s: (s.score, s.descendants, s.time)`. -/
def storyKey (s : Story) : Int × Int × Int := (s.score, s.descendants, s.time)

/-- Python's lexicographic order on 3-tuples of integers. -/
def tupLe (a b : Int × Int × Int) : Prop :=
  a.1 < b.1 ∨ (a.1 = b.1 ∧ (a.2.1 < b.2.1 ∨ (a.2.1 = b.2.1 ∧ a.2.2 ≤ b.2.2)))

instance (a b : Int × Int × Int) : Decidable (tupLe a b) := by
  unfold tupLe; infer_instance

/-- The comparator realising `sort(key=storyKey, reverse=True)`:
`a` may precede `b` iff `storyKey b ≤ storyKey a` lexicographically. -/
def keyDesc (a b : Story) : Bool := decide (tupLe (storyKey b) (storyKey a))

/-- Lines 116-117: `recent.sort(key=..., reverse=True); return recent[:10]`.
Python's `list.sort` is a stable merge sort; `List.mergeSort` with the
reversed-key comparator models `reverse=True` exactly (ties keep their
original relative order in both). -/
def rank_top (recent : List Story) : List Story :=
  (recent.mergeSort keyDesc).take 10

/-- Line 113: `[s for s in stories if s.time >= cutoff_ts]`. -/
def window_filter (stories : List Story) (cutoff_ts : Int) : List Story :=
  stories.filter (fun s => decide (s.time ≥ cutoff_ts))

/-- `collect_top_new` (lines 97-117), with the two effectful inputs
abstracted: `newIds` is the decoded result of `get_new_story_ids()`,
`fetchItem` is the per-id `get_item` fetch (the `ThreadPoolExecutor.map`
of lines 104-107 yields results in submission order, and falsy results
are dropped, i.e. `List.filterMap`), and `cutoff_ts` is the epoch second
computed on lines 110-112 from the wall clock
(`int((now_ist - timedelta(hours=window_hours)).timestamp())`), which is
outside the embedding.  `--limit` is a non-negative count. -/
def collect_top_new (newIds : List Int) (limit : Nat)
    (fetchItem : Int → Option Story) (cutoff_ts : Int) : List Story :=
  let ids := newIds.take limit
  if ids = [] then []
  else rank_top (window_filter (ids.filterMap fetchItem) cutoff_ts)

/-! ### The table presenter (lines 119-146)

Modelled as the list of lines written to stdout. -/

/-- Line 125. -/
def table_headers : List String :=
  ["#", "Title", "Score", "Comments", "By", "Created (IST)", "HN Link", "URL"]

/-- Lines 128-137: one rendered table row; Python applies `str()` to the
integer cells when measuring and printing, so cells are strings here. -/
def table_row (rank : Nat) (s : Story) : List String :=
  [toString rank, human_trunc s.title 80, toString s.score,
   toString s.descendants, s.«by», s.created_at_ist, s.hn_link,
   human_trunc (pyOrStr s.url s.hn_link) 80]

/-- The loop of lines 127-137 (`enumerate(stories, 1)`), as recursion on
the list carrying the 1-based rank. -/
def table_rows_from (rank : Nat) : List Story → List (List String)
  | [] => []
  | s :: tl => table_row rank s :: table_rows_from (rank + 1) tl

/-- Python `str.ljust`: pad on the right with spaces to width `w`. -/
def ljust (s : String) (w : Nat) : String :=
  s ++ (List.replicate (w - s.length) ' ').asString

/-- Line 139: per-column width, the max of the header cell and every row
cell in that column. -/
def col_widths (rows : List (List String)) : List Nat :=
  (List.range table_headers.length).map fun i =>
    ((table_headers :: rows).map fun r => ((r.get? i).getD "").length).foldr max 0

/-- Lines 140-141: `" | ".join(str(v).ljust(w) ...)`. -/
def fmt_row (row : List String) (widths : List Nat) : String :=
  String.intercalate " | " ((row.zip widths).map fun p => ljust p.1 p.2)

/-- `print_table` (lines 119-146), as the list of printed lines. -/
def print_table (stories : List Story) : List String :=
  if stories = [] then ["No stories found in the specified window."]
  else
    let rows := table_rows_from 1 stories
    let widths := col_widths rows
    fmt_row table_headers widths ::
      String.intercalate "-+-" (widths.map fun w => (List.replicate w '-').asString) ::
      rows.map fun r => fmt_row r widths

/-! ### CSV export (lines 148-153)

`csv.writer` with the default `excel` dialect: delimiter `,`, quote char
`"`, `QUOTE_MINIMAL` (a field is quoted iff it contains the delimiter,
the quote char, or a line-terminator character, with embedded quotes
doubled), row terminator `"\r\n"` (preserved because the file is opened
with `newline=""`).  The file is modelled as the list of serialized CSV
records; on disk each record is followed by `"\r\n"`.  `csv.writer`
stringifies cells with `str()` and writes `None` as the empty string. -/

/-- Characters that force quoting under `QUOTE_MINIMAL`. -/
def csvSpecial (c : Char) : Bool :=
  c = ',' || c = '"' || c = '\r' || c = '\n'

/-- Double every embedded quote char. -/
def csvEscape : List Char → List Char
  | [] => []
  | c :: rest =>
    if c = '"' then '"' :: '"' :: csvEscape rest else c :: csvEscape rest

/-- Serialize one field under `QUOTE_MINIMAL`. -/
def csvFieldEnc (f : List Char) : List Char :=
  if f.any csvSpecial then '"' :: (csvEscape f ++ ['"']) else f

/-- Serialize one record: encoded fields joined by the delimiter. -/
def csvRecord (fs : List String) : String :=
  (List.intercalate [','] (fs.map fun f => csvFieldEnc f.data)).asString

/-- `str(None)` rendering used by `csv.writer`: `None` becomes the empty
string, an integer its decimal form (the `id` cell, line 153). -/
def csvNone : Option Int → String
  | none => ""
  | some n => toString n

/-- The header row of line 151. -/
def csv_header_fields : List String :=
  ["rank", "id", "title", "score", "comments", "by", "created_ist", "hn_link", "url"]

/-- The row of line 153:
`[i, s.id, s.title, s.score, s.descendants, s.by, s.created_at_ist, s.hn_link, s.url or ""]`. -/
def csv_fields (rank : Nat) (s : Story) : List String :=
  [toString rank, csvNone s.id, s.title, toString s.score,
   toString s.descendants, s.«by», s.created_at_ist, s.hn_link,
   pyOrStr s.url ""]

/-- The loop of lines 152-153 (`enumerate(stories, 1)`). -/
def csv_rows_from (rank : Nat) : List Story → List String
  | [] => []
  | s :: tl => csvRecord (csv_fields rank s) :: csv_rows_from (rank + 1) tl

/-- `write_csv` (lines 148-153): header record then one record per story
in rank order. -/
def write_csv (stories : List Story) : List String :=
  csvRecord csv_header_fields :: csv_rows_from 1 stories

/-! A CSV record parser (for the round-trip property): reads one
serialized record back into its fields, honouring `excel`-dialect
quoting. -/

mutual

/-- Parse a record at a field boundary. -/
def parseCsv : List Char → List (List Char)
  | [] => [[]]
  | c :: rest =>
    if c = '"' then parseQuoted rest []
    else if c = ',' then [] :: parseCsv rest
    else parseUnquoted rest [c]
  termination_by l => l.length

/-- Parse the remainder of an unquoted field (`acc` holds the chars read
so far, reversed). -/
def parseUnquoted : List Char → List Char → List (List Char)
  | [], acc => [acc.reverse]
  | c :: rest, acc =>
    if c = ',' then acc.reverse :: parseCsv rest
    else parseUnquoted rest (c :: acc)
  termination_by l _ => l.length

/-- Parse the remainder of a quoted field: `""` is a literal quote, a
lone closing quote ends the field. -/
def parseQuoted : List Char → List Char → List (List Char)
  | [], acc => [acc.reverse]
  | c :: rest, acc =>
    if c = '"' then
      match rest with
      | [] => [acc.reverse]
      | c2 :: rest2 =>
        if c2 = '"' then parseQuoted rest2 ('"' :: acc)
        else if c2 = ',' then acc.reverse :: parseCsv rest2
        else parseUnquoted rest2 [c2]
    else parseQuoted rest (c :: acc)
  termination_by l _ => l.length

end

/-- Parse a serialized CSV record into its fields. -/
def parseCsvStr (s : String) : List String :=
  (parseCsv s.data).map List.asString

/-! ### Markdown export (lines 155-160) -/

/-- The heading written on line 157 (note the separating blank line). -/
def md_heading : String := "# Top 10 New Hacker News (last 24h, IST)\n\n"

/-- The story line of line 160 without its terminating newline;
`url = s.url or s.hn_link` (line 159). -/
def md_body (rank : Nat) (s : Story) : String :=
  toString rank ++ ". [" ++ s.title ++ "](" ++ pyOrStr s.url s.hn_link ++
    ") — **" ++ toString s.score ++ " points**, " ++
    toString s.descendants ++ " comments — " ++ s.created_at_ist ++
    " — [HN](" ++ s.hn_link ++ ")"

/-- One full story line as written by `f.write` on line 160. -/
def md_line (rank : Nat) (s : Story) : String := md_body rank s ++ "\n"

/-- The loop of lines 158-160 (`enumerate(stories, 1)`): the
concatenation of the `f.write` calls, one line per story. -/
def md_text_from (rank : Nat) : List Story → String
  | [] => ""
  | s :: tl => md_line rank s ++ md_text_from (rank + 1) tl

/-- The bodies of the story lines, rank-enumerated. -/
def md_bodies_from (rank : Nat) : List Story → List String
  | [] => []
  | s :: tl => md_body rank s :: md_bodies_from (rank + 1) tl

/-- `write_md` (lines 155-160): the full file content. -/
def write_md (stories : List Story) : String :=
  md_heading ++ md_text_from 1 stories

/-- Number of lines of a file in the `readlines`/`wc -l` sense: the
number of newline characters (every line this program writes,
including the last, is newline-terminated). -/
def lineCount (content : String) : Nat := content.data.count '\n'

/-! ## Helper lemmas -/

lemma pyOrStr_ne_empty (x : Option String) (dflt : String) (hd : dflt ≠ "") :
    pyOrStr x dflt ≠ "" := by
  cases x with
  | none => exact hd
  | some s =>
    show (if s = "" then dflt else s) ≠ ""
    split
    · exact hd
    · assumption

attribute [local semireducible] List.merge List.mergeSort

lemma digitChar_ne_newline (n : Nat) : Nat.digitChar n ≠ '\n' := by
  rcases n with _|_|_|_|_|_|_|_|_|_|_|_|_|_|_|_|m
  all_goals first | decide | (simp [Nat.digitChar])

lemma toDigitsCore_no_newline (b : Nat) :
    ∀ (fuel n : Nat) (acc : List Char),
      '\n' ∉ acc → '\n' ∉ Nat.toDigitsCore b fuel n acc := by
  intro fuel
  induction fuel with
  | zero => intro n acc h; exact h
  | succ f ih =>
    intro n acc h
    have hd : '\n' ∉ (n % b).digitChar :: acc := by
      intro hmem
      rcases List.mem_cons.mp hmem with h1 | h1
      · exact digitChar_ne_newline _ h1.symm
      · exact h h1
    rw [Nat.toDigitsCore]
    split
    · exact hd
    · exact ih _ _ hd

lemma natRepr_no_newline (n : Nat) : '\n' ∉ (Nat.repr n).data := by
  have h := toDigitsCore_no_newline 10 (n + 1) n [] (by simp)
  simpa [Nat.repr, Nat.toDigits] using h

lemma intToString_no_newline (i : Int) : '\n' ∉ (toString i).data := by
  cases i with
  | ofNat m => exact natRepr_no_newline m
  | negSucc m =>
    show '\n' ∉ ("-" ++ Nat.repr (m + 1)).data
    rw [String.data_append]
    intro hmem
    rcases List.mem_append.mp hmem with h1 | h1
    · exact (by decide : '\n' ∉ ("-" : String).data) h1
    · exact natRepr_no_newline _ h1

lemma no_newline_append {a b : String} (ha : '\n' ∉ a.data) (hb : '\n' ∉ b.data) :
    '\n' ∉ (a ++ b).data := by
  rw [String.data_append]
  intro hmem
  rcases List.mem_append.mp hmem with h | h
  · exact ha h
  · exact hb h

lemma pad2_no_newline (n : Int) : '\n' ∉ (pad2 n).data := by
  rw [pad2]
  split
  · exact no_newline_append (by decide) (intToString_no_newline n)
  · exact intToString_no_newline n

lemma format_ist_no_newline (t : Int) : '\n' ∉ (format_ist t).data := by
  simp only [format_ist]
  repeat' apply no_newline_append
  all_goals first | decide | apply intToString_no_newline | apply pad2_no_newline

lemma pyStr_no_newline (x : Option Int) : '\n' ∉ (pyStr x).data := by
  cases x with
  | none => decide
  | some n => exact intToString_no_newline n

lemma hn_link_no_newline (s : Story) : '\n' ∉ s.hn_link.data :=
  no_newline_append (by decide) (pyStr_no_newline s.id)

lemma md_url_no_newline (s : Story)
    (hu : ∀ u, s.url = some u → '\n' ∉ u.data) :
    '\n' ∉ (pyOrStr s.url s.hn_link).data := by
  cases hurl : s.url with
  | none => exact hn_link_no_newline s
  | some u =>
    show '\n' ∉ (if u = "" then s.hn_link else u).data
    split
    · exact hn_link_no_newline s
    · exact hu u hurl

lemma md_body_no_newline (rank : Nat) (s : Story)
    (ht : '\n' ∉ s.title.data)
    (hu : ∀ u, s.url = some u → '\n' ∉ u.data) :
    '\n' ∉ (md_body rank s).data := by
  rw [md_body]
  simp only [String.data_append, List.mem_append, not_or]
  exact ⟨⟨⟨⟨⟨⟨⟨⟨⟨⟨⟨⟨⟨natRepr_no_newline rank, by decide⟩, ht⟩, by decide⟩,
    md_url_no_newline s hu⟩, by decide⟩, intToString_no_newline s.score⟩,
    by decide⟩, intToString_no_newline s.descendants⟩, by decide⟩,
    format_ist_no_newline s.time⟩, by decide⟩, hn_link_no_newline s⟩, by decide⟩

lemma count_md_text (rank : Nat) (ss : List Story)
    (h : ∀ s ∈ ss, '\n' ∉ s.title.data ∧ ∀ u, s.url = some u → '\n' ∉ u.data) :
    (md_text_from rank ss).data.count '\n' = ss.length := by
  induction ss generalizing rank with
  | nil => rfl
  | cons s tl ih =>
    rw [md_text_from, String.data_append, List.count_append]
    have hbody := md_body_no_newline rank s (h s (List.mem_cons_self s tl)).1
      (h s (List.mem_cons_self s tl)).2
    have h1 : (md_line rank s).data.count '\n' = 1 := by
      rw [md_line, String.data_append, List.count_append]
      rw [List.count_eq_zero.mpr hbody]
      decide
    rw [h1, ih (rank + 1) fun s hs => h s (List.mem_cons_of_mem _ hs)]
    simp [List.length_cons]
    omega

lemma intercalate_cons_of_ne_nil (sep a : List Char) (l : List (List Char))
    (h : l ≠ []) : sep.intercalate (a :: l) = a ++ sep ++ sep.intercalate l := by
  obtain ⟨b, t, rfl⟩ := List.exists_cons_of_ne_nil h
  simp [List.intercalate, List.intersperse]

lemma md_text_data (rank : Nat) (ss : List Story) :
    (md_text_from rank ss).data =
      ['\n'].intercalate ((md_bodies_from rank ss).map String.data ++ [[]]) := by
  induction ss generalizing rank with
  | nil => simp [md_text_from, md_bodies_from, List.intercalate]
  | cons s tl ih =>
    rw [md_text_from, md_bodies_from, List.map_cons, List.cons_append,
      intercalate_cons_of_ne_nil _ _ _ (by simp),
      String.data_append, ih (rank + 1), md_line, String.data_append]

lemma write_md_data (ss : List Story) :
    (write_md ss).data =
      ['\n'].intercalate ("# Top 10 New Hacker News (last 24h, IST)".data :: [] ::
        ((md_bodies_from 1 ss).map String.data ++ [[]])) := by
  rw [write_md, String.data_append, md_text_data 1,
    intercalate_cons_of_ne_nil _ _ _ (by simp),
    intercalate_cons_of_ne_nil _ _ _ (by simp)]
  have hh : md_heading.data =
      "# Top 10 New Hacker News (last 24h, IST)".data ++ ['\n', '\n'] := by decide
  rw [hh]
  simp [List.append_assoc]

lemma md_bodies_mem (rank : Nat) (ss : List Story) (x : String)
    (hx : x ∈ md_bodies_from rank ss) : ∃ k s, s ∈ ss ∧ x = md_body k s := by
  induction ss generalizing rank with
  | nil => simp [md_bodies_from] at hx
  | cons s tl ih =>
    rw [md_bodies_from] at hx
    rcases List.mem_cons.mp hx with h | h
    · exact ⟨rank, s, List.mem_cons_self s tl, h⟩
    · obtain ⟨k, s', hs', hx'⟩ := ih (rank + 1) h
      exact ⟨k, s', List.mem_cons_of_mem _ hs', hx'⟩

lemma md_bodies_length (rank : Nat) (ss : List Story) :
    (md_bodies_from rank ss).length = ss.length := by
  induction ss generalizing rank with
  | nil => rfl
  | cons s tl ih => rw [md_bodies_from]; simp [ih]

lemma keyDesc_trans : ∀ a b c : Story,
    keyDesc a b = true → keyDesc b c = true → keyDesc a c = true := by
  intro a b c
  simp only [keyDesc, decide_eq_true_eq, tupLe, storyKey]
  omega

lemma keyDesc_total : ∀ a b : Story, (keyDesc a b || keyDesc b a) = true := by
  intro a b
  simp only [keyDesc, Bool.or_eq_true, decide_eq_true_eq, tupLe, storyKey]
  omega

lemma rank_top_sorted (l : List Story) :
    List.Sorted (fun a b => tupLe (storyKey b) (storyKey a)) (rank_top l) := by
  have h := List.sorted_mergeSort keyDesc_trans keyDesc_total l
  have h' : List.Pairwise (fun a b => tupLe (storyKey b) (storyKey a))
      (l.mergeSort keyDesc) :=
    h.imp fun hab => by simpa [keyDesc, decide_eq_true_eq] using hab
  exact List.Pairwise.sublist (List.take_sublist 10 _) h'

lemma rank_top_length_le (l : List Story) : (rank_top l).length ≤ 10 := by
  rw [rank_top]
  simp [List.length_take]

/-- The scenario fetch of C1: three stories with scores `[50, 50, 30]`,
comment counts `[5, 9, 100]` and equal creation times. -/
def scenarioFetch : Int → Option Story := fun i =>
  if i = 1 then some ⟨some 1, "A", none, 50, "u", 1000, 5⟩
  else if i = 2 then some ⟨some 2, "B", none, 50, "u", 1000, 9⟩
  else if i = 3 then some ⟨some 3, "C", none, 30, "u", 1000, 100⟩
  else none

lemma parseUnquoted_no_special (f : List Char) :
    ∀ acc : List Char, (∀ c ∈ f, csvSpecial c = false) →
      (∀ rest, parseUnquoted (f ++ ',' :: rest) acc =
        (acc.reverse ++ f) :: parseCsv rest) ∧
      parseUnquoted f acc = [acc.reverse ++ f] := by
  induction f with
  | nil =>
    intro acc _
    constructor
    · intro rest
      show parseUnquoted (',' :: rest) acc = _
      simp [parseUnquoted]
    · show parseUnquoted [] acc = _
      simp [parseUnquoted]
  | cons c f' ih =>
    intro acc h
    have hc : csvSpecial c = false := h c (List.mem_cons_self c f')
    have hcomma : ¬(c = ',') := by
      intro hc'
      rw [hc'] at hc
      simp [csvSpecial] at hc
    have htl : ∀ x ∈ f', csvSpecial x = false :=
      fun x hx => h x (List.mem_cons_of_mem _ hx)
    constructor
    · intro rest
      show parseUnquoted (c :: (f' ++ ',' :: rest)) acc = _
      rw [parseUnquoted, if_neg hcomma, (ih (c :: acc) htl).1 rest]
      simp
    · show parseUnquoted (c :: f') acc = _
      rw [parseUnquoted, if_neg hcomma, (ih (c :: acc) htl).2]
      simp

lemma parseQuoted_qq (rest acc : List Char) :
    parseQuoted ('"' :: '"' :: rest) acc = parseQuoted rest ('"' :: acc) := by
  rw [parseQuoted.eq_def]
  simp

lemma parseQuoted_other (c : Char) (rest acc : List Char) (hc : ¬(c = '"')) :
    parseQuoted (c :: rest) acc = parseQuoted rest (c :: acc) := by
  rw [parseQuoted.eq_def]
  simp [hc]

lemma parseQuoted_escape (f : List Char) :
    ∀ acc : List Char,
      (∀ rest, parseQuoted (csvEscape f ++ '"' :: ',' :: rest) acc =
        (acc.reverse ++ f) :: parseCsv rest) ∧
      parseQuoted (csvEscape f ++ ['"']) acc = [acc.reverse ++ f] := by
  induction f with
  | nil =>
    intro acc
    constructor
    · intro rest
      show parseQuoted ('"' :: ',' :: rest) acc = _
      simp [parseQuoted]
    · show parseQuoted ['"'] acc = _
      simp [parseQuoted]
  | cons c f' ih =>
    intro acc
    by_cases hc : c = '"'
    · subst hc
      have he : csvEscape ('"' :: f') = '"' :: '"' :: csvEscape f' := by
        simp [csvEscape]
      constructor
      · intro rest
        rw [he]
        show parseQuoted ('"' :: '"' :: (csvEscape f' ++ '"' :: ',' :: rest)) acc = _
        rw [parseQuoted_qq, (ih ('"' :: acc)).1 rest]
        simp
      · rw [he]
        show parseQuoted ('"' :: '"' :: (csvEscape f' ++ ['"'])) acc = _
        rw [parseQuoted_qq, (ih ('"' :: acc)).2]
        simp
    · have he : csvEscape (c :: f') = c :: csvEscape f' := by
        simp [csvEscape, hc]
      constructor
      · intro rest
        rw [he]
        show parseQuoted (c :: (csvEscape f' ++ '"' :: ',' :: rest)) acc = _
        rw [parseQuoted_other c _ _ hc, (ih (c :: acc)).1 rest]
        simp
      · rw [he]
        show parseQuoted (c :: (csvEscape f' ++ ['"'])) acc = _
        rw [parseQuoted_other c _ _ hc, (ih (c :: acc)).2]
        simp

lemma parseCsv_field (f : List Char) :
    (∀ rest, parseCsv (csvFieldEnc f ++ ',' :: rest) = f :: parseCsv rest) ∧
    parseCsv (csvFieldEnc f) = [f] := by
  by_cases hq : f.any csvSpecial
  · have he : csvFieldEnc f = '"' :: (csvEscape f ++ ['"']) := by
      rw [csvFieldEnc, if_pos hq]
    constructor
    · intro rest
      rw [he]
      show parseCsv ('"' :: ((csvEscape f ++ ['"']) ++ ',' :: rest)) = _
      rw [parseCsv]
      simp only [if_pos rfl]
      rw [List.append_assoc]
      have h := (parseQuoted_escape f []).1 rest
      simpa using h
    · rw [he]
      show parseCsv ('"' :: (csvEscape f ++ ['"'])) = _
      rw [parseCsv]
      simp only [if_pos rfl]
      have h := (parseQuoted_escape f []).2
      simpa using h
  · have he : csvFieldEnc f = f := by rw [csvFieldEnc, if_neg hq]
    have hns : ∀ c ∈ f, csvSpecial c = false := by
      intro c hc
      by_contra hcc
      exact hq (List.any_eq_true.mpr ⟨c, hc, by simpa using hcc⟩)
    cases f with
    | nil =>
      constructor
      · intro rest
        rw [he]
        show parseCsv (',' :: rest) = _
        simp [parseCsv]
      · rw [he]
        simp [parseCsv]
    | cons c f' =>
      have hc : csvSpecial c = false := hns c (List.mem_cons_self c f')
      have hcq : ¬(c = '"') := by
        intro h
        rw [h] at hc
        simp [csvSpecial] at hc
      have hcc : ¬(c = ',') := by
        intro h
        rw [h] at hc
        simp [csvSpecial] at hc
      have htl : ∀ x ∈ f', csvSpecial x = false :=
        fun x hx => hns x (List.mem_cons_of_mem _ hx)
      constructor
      · intro rest
        rw [he]
        show parseCsv (c :: (f' ++ ',' :: rest)) = _
        rw [parseCsv, if_neg hcq, if_neg hcc,
          (parseUnquoted_no_special f' [c] htl).1 rest]
        simp
      · rw [he]
        show parseCsv (c :: f') = _
        rw [parseCsv, if_neg hcq, if_neg hcc,
          (parseUnquoted_no_special f' [c] htl).2]
        simp

lemma parseCsv_record (fs : List (List Char)) (hfs : fs ≠ []) :
    parseCsv (List.intercalate [','] (fs.map csvFieldEnc)) = fs := by
  induction fs with
  | nil => exact absurd rfl hfs
  | cons f tl ih =>
    cases tl with
    | nil =>
      rw [List.map_cons, List.map_nil,
        show List.intercalate [','] [csvFieldEnc f] = csvFieldEnc f from by
          simp [List.intercalate]]
      exact (parseCsv_field f).2
    | cons f2 tl2 =>
      rw [List.map_cons, intercalate_cons_of_ne_nil _ _ _ (by simp),
        List.append_assoc, List.singleton_append, (parseCsv_field f).1,
        ih (by simp)]

lemma parseCsvStr_record (fs : List String) (h : fs ≠ []) :
    parseCsvStr (csvRecord fs) = fs := by
  rw [parseCsvStr, csvRecord]
  have hd : ((List.intercalate [','] (fs.map fun f => csvFieldEnc f.data)).asString).data
      = List.intercalate [','] (fs.map fun f => csvFieldEnc f.data) := rfl
  rw [hd, show (fs.map fun f => csvFieldEnc f.data)
      = (fs.map String.data).map csvFieldEnc from (List.map_map csvFieldEnc String.data fs).symm,
    parseCsv_record _ (by simpa using h), List.map_map]
  exact List.map_id fs

lemma csv_rows_from_length (ss : List Story) :
    ∀ r : Nat, (csv_rows_from r ss).length = ss.length := by
  induction ss with
  | nil => intro r; rfl
  | cons s tl ih => intro r; rw [csv_rows_from]; simp [ih (r + 1)]

lemma csv_rows_from_get (ss : List Story) :
    ∀ (r k : Nat) (hk : k < ss.length),
      (csv_rows_from r ss).get? k =
        some (csvRecord (csv_fields (r + k) (ss.get ⟨k, hk⟩))) := by
  induction ss with
  | nil => intro r k hk; exact absurd hk (by simp)
  | cons s tl ih =>
    intro r k hk
    cases k with
    | zero => simp [csv_rows_from]
    | succ k' =>
      rw [csv_rows_from]
      show (csv_rows_from (r + 1) tl).get? k' = _
      rw [ih (r + 1) k' (by simpa using hk)]
      have : r + 1 + k' = r + (k' + 1) := by omega
      rw [this]
      rfl

/-! ## Claims -/

/-- C1: the collector always returns a list sorted non-increasingly by
the lexicographic key (score, descendants, time) of length at most 10;
on the scenario stories with scores `[50, 50, 30]`, comment counts
`[5, 9, 100]` and equal times, the output order is the score-50/9-comment
story, then the score-50/5-comment story, then the score-30/100-comment
story. -/
theorem collect_top_new_sorted :
    (∀ (newIds : List Int) (limit : Nat) (fetchItem : Int → Option Story)
        (cutoff_ts : Int),
      List.Sorted (fun a b => tupLe (storyKey b) (storyKey a))
        (collect_top_new newIds limit fetchItem cutoff_ts) ∧
      (collect_top_new newIds limit fetchItem cutoff_ts).length ≤ 10) ∧
    collect_top_new [1, 2, 3] 400 scenarioFetch 0 =
      [⟨some 2, "B", none, 50, "u", 1000, 9⟩,
       ⟨some 1, "A", none, 50, "u", 1000, 5⟩,
       ⟨some 3, "C", none, 30, "u", 1000, 100⟩] := by
  constructor
  · intro newIds limit fetchItem cutoff_ts
    rw [collect_top_new]
    split
    · exact ⟨List.sorted_nil, by simp⟩
    · exact ⟨rank_top_sorted _, rank_top_length_le _⟩
  · decide

/-- C2: the collector's time-window filter keeps exactly the stories whose
creation timestamp is at least the cutoff; a story with timestamp equal to
the cutoff is kept, one with timestamp one second earlier is dropped. -/
theorem window_filter_boundary (stories : List Story) (cutoff_ts : Int) :
    (∀ s, s ∈ window_filter stories cutoff_ts ↔ s ∈ stories ∧ s.time ≥ cutoff_ts) ∧
    (∀ s, s ∈ stories → s.time = cutoff_ts → s ∈ window_filter stories cutoff_ts) ∧
    (∀ s, s.time = cutoff_ts - 1 → s ∉ window_filter stories cutoff_ts) := by
  refine ⟨fun s => ?_, fun s hs ht => ?_, fun s ht hmem => ?_⟩
  · simp [window_filter, List.mem_filter]
  · simp only [window_filter, List.mem_filter, decide_eq_true_eq]
    exact ⟨hs, le_of_eq ht.symm⟩
  · simp only [window_filter, List.mem_filter, decide_eq_true_eq] at hmem
    omega

/-- Witness for C2 at a concrete input: with cutoff 1000, a story created
at second 1000 passes the filter and one created at 999 does not. -/
theorem window_filter_boundary_witness :
    (⟨some 1, "A", none, 1, "a", 1000, 0⟩ : Story) ∈
        window_filter [⟨some 1, "A", none, 1, "a", 1000, 0⟩,
          ⟨some 2, "B", none, 1, "b", 999, 0⟩] 1000 ∧
    (⟨some 2, "B", none, 1, "b", 999, 0⟩ : Story) ∉
        window_filter [⟨some 1, "A", none, 1, "a", 1000, 0⟩,
          ⟨some 2, "B", none, 1, "b", 999, 0⟩] 1000 :=
  ⟨(window_filter_boundary _ 1000).2.1 _ (by simp) rfl,
   (window_filter_boundary _ 1000).2.2 _ rfl⟩

/-- C3: `get_item` returns nothing when the fetch failed or the record's
declared type is not `"story"`; otherwise it builds a `Story` with the
defaults: absent title becomes `"(no title)"`, absent author becomes
`"unknown"`, absent score, timestamp and descendant count become `0`. -/
theorem get_item_contract (fetched : Option ItemRecord) :
    (fetched = none → get_item fetched = none) ∧
    (∀ data, fetched = some data → data.type ≠ some "story" →
      get_item fetched = none) ∧
    (∀ data, fetched = some data → data.type = some "story" →
      ∃ s, get_item fetched = some s ∧
        (data.title = none → s.title = "(no title)") ∧
        (data.«by» = none → s.«by» = "unknown") ∧
        (data.score = none → s.score = 0) ∧
        (data.time = none → s.time = 0) ∧
        (data.descendants = none → s.descendants = 0)) := by
  refine ⟨fun h => by subst h; rfl, fun data hd ht => ?_, fun data hd ht => ?_⟩
  · subst hd
    rw [get_item, if_pos (Or.inr ht)]
  · subst hd
    have hne : ¬(recFalsy data ∨ data.type ≠ some "story") := by
      rintro (hf | hne)
      · rw [recFalsy] at hf
        rw [hf] at ht
        exact Option.noConfusion ht
      · exact hne ht
    rw [get_item, if_neg hne]
    refine ⟨_, rfl, fun h => ?_, fun h => ?_, fun h => ?_, fun h => ?_, fun h => ?_⟩
    all_goals simp only [h, pyOrStr, pyOrInt]

/-- Witness for C3: a record of type `"story"` with every other field
absent yields a `Story` carrying every default. -/
theorem get_item_contract_witness :
    (get_item (some ⟨some "story", none, none, none, none, none, none, none⟩)).map Story.title
        = some "(no title)" ∧
    (get_item (some ⟨some "story", none, none, none, none, none, none, none⟩)).map Story.«by»
        = some "unknown" ∧
    (get_item (some ⟨some "story", none, none, none, none, none, none, none⟩)).map Story.score
        = some 0 ∧
    (get_item (some ⟨some "story", none, none, none, none, none, none, none⟩)).map Story.time
        = some 0 ∧
    (get_item (some ⟨some "story", none, none, none, none, none, none, none⟩)).map Story.descendants
        = some 0 := by
  obtain ⟨s, hs, h1, h2, h3, h4, h5⟩ :=
    (get_item_contract (some ⟨some "story", none, none, none, none, none, none, none⟩)).2.2
      _ rfl rfl
  rw [hs]
  simp only [Option.map_some']
  rw [h1 rfl, h2 rfl, h3 rfl, h4 rfl, h5 rfl]
  exact ⟨rfl, rfl, rfl, rfl, rfl⟩

/-- C4 counterexample: at maximum length `L = 0` the claim fails: the
source computes `s[:-1] + "…"`, so `human_trunc "ab" 0 = "a…"`, whose
length 2 is not at most 0. -/
theorem human_trunc_cex :
    human_trunc "ab" 0 = "a…" ∧ ¬((human_trunc "ab" 0).length ≤ 0) := by decide

/-- C4 amended: for every maximum length `L ≥ 1`, `human_trunc` returns
`S` unchanged when `length S ≤ L` and otherwise the first `L - 1`
characters of `S` followed by a single ellipsis character; in either case
the result's length is at most `L`. -/
theorem human_trunc_spec (s : String) (L : Int) (hL : 1 ≤ L) :
    ((s.length : Int) ≤ L → human_trunc s L = s) ∧
    (L < (s.length : Int) →
      human_trunc s L = (s.data.take (L - 1).toNat).asString ++ "…") ∧
    ((human_trunc s L).length : Int) ≤ L := by
  by_cases h : (s.length : Int) ≤ L
  · rw [human_trunc, if_pos h]
    exact ⟨fun _ => rfl, fun hlt => absurd hlt (not_lt.mpr h), h⟩
  · rw [human_trunc, if_neg h]
    have hsl : pySliceTo s (L - 1) = (s.data.take (L - 1).toNat).asString := by
      rw [pySliceTo, if_pos (by omega)]
    refine ⟨fun hle => absurd hle h, fun _ => by rw [hsl], ?_⟩
    rw [hsl, String.length_append]
    have hlen : ((s.data.take (L - 1).toNat).asString).length =
        (s.data.take (L - 1).toNat).length := rfl
    have hdata : s.data.length = s.length := rfl
    rw [hlen, List.length_take]
    have h2 : ("…" : String).length = 1 := by decide
    rw [h2]
    omega

/-- Witness for C4 at a concrete input: `L = 4`, `S = "hello"`. -/
theorem human_trunc_spec_witness :
    (1 : Int) ≤ 4 ∧ ((human_trunc "hello" 4).length : Int) ≤ 4 :=
  ⟨by decide, (human_trunc_spec "hello" 4 (by decide)).2.2⟩

/-- C5 counterexample: nothing in `get_item` clamps negative numbers, so
a fetched record of type `"story"` with `score = -1` and
`descendants = -2` yields a `Story` violating the claimed non-negativity
invariant. -/
theorem story_invariants_cex :
    ¬(∀ (fetched : Option ItemRecord) (s : Story), get_item fetched = some s →
        0 ≤ s.score ∧ 0 ≤ s.descendants ∧ s.title ≠ "") := by
  intro h
  have := h (some ⟨some "story", some 1, some "t", none, some (-1), some "a",
      some 5, some (-2)⟩) ⟨some 1, "t", none, -1, "a", 5, -2⟩ (by decide)
  exact absurd this.1 (by decide)

/-- C5 amended: every `Story` that `get_item` constructs has a non-empty
title; its identifier is the record's `id` value unchanged (and the
embedding offers no mutation at all); its score and descendant count are
non-negative whenever the record's corresponding field is absent or
non-negative (the source copies them unclamped). -/
theorem story_invariants (fetched : Option ItemRecord) (s : Story)
    (h : get_item fetched = some s) :
    s.title ≠ "" ∧
    ∀ data, fetched = some data →
      s.id = data.id ∧
      (0 ≤ pyOrInt data.score → 0 ≤ s.score) ∧
      (0 ≤ pyOrInt data.descendants → 0 ≤ s.descendants) := by
  cases fetched with
  | none => exact Option.noConfusion h
  | some data =>
    rw [get_item] at h
    split at h
    · exact absurd h (by simp)
    · have hs := (Option.some.injEq _ _).mp h
      subst hs
      refine ⟨pyOrStr_ne_empty _ _ (by decide), fun d hd => ?_⟩
      cases hd
      exact ⟨rfl, fun hsc => hsc, fun hde => hde⟩

/-- Witness for C5 at a concrete input: the all-defaults story record. -/
theorem story_invariants_witness :
    get_item (some ⟨some "story", some 7, none, none, none, none, none, none⟩)
        = some ⟨some 7, "(no title)", none, 0, "unknown", 0, 0⟩ ∧
    ("(no title)" : String) ≠ "" ∧ (0 : Int) ≤ 0 := by
  have hg : get_item (some ⟨some "story", some 7, none, none, none, none, none, none⟩)
      = some ⟨some 7, "(no title)", none, 0, "unknown", 0, 0⟩ := by decide
  have h := story_invariants _ _ hg
  refine ⟨hg, h.1, ((h.2 _ rfl).2.1 (by decide))⟩

/-- C8: with an empty ID list the collector returns `[]` regardless of
the per-item fetch function (so no fetch can influence the result); the
table presenter prints exactly the single no-stories notice; the CSV
export is header-only; the Markdown export is the heading alone, with
zero story lines. -/
theorem empty_run_behavior :
    (∀ (limit : Nat) (fetchItem : Int → Option Story) (cutoff_ts : Int),
      collect_top_new [] limit fetchItem cutoff_ts = []) ∧
    print_table [] = ["No stories found in the specified window."] ∧
    write_csv [] = ["rank,id,title,score,comments,by,created_ist,hn_link,url"] ∧
    write_md [] = "# Top 10 New Hacker News (last 24h, IST)\n\n" ∧
    md_text_from 1 [] = "" := by
  refine ⟨fun limit fetchItem cutoff_ts => ?_, by decide, by decide, by decide, rfl⟩
  rw [collect_top_new]
  simp

/-- C9: the two even-number scripts compute the same function, and both
return exactly the input elements with remainder 0 modulo 2 (Python `%`
on a positive modulus is `Int.emod`), in their original order (the output
is a sublist of the input). -/
theorem even_filters_agree (numbers : List Int) :
    find_even_numbers numbers = identify_even_numbers numbers ∧
    (∀ n, n ∈ find_even_numbers numbers ↔ n ∈ numbers ∧ n % 2 = 0) ∧
    (find_even_numbers numbers).Sublist numbers := by
  refine ⟨rfl, fun n => ?_, List.filter_sublist _⟩
  simp [find_even_numbers, List.mem_filter]

/-- C10: a successfully fetched record of declared type `"story"` lacking
an `id` field still yields a `Story`; its identifier is the absent value
(`get_item` passes the record's `id` through with no default), and the
derived HN link renders the non-numeric text `None` in place of the
identifier. -/
theorem get_item_missing_id :
    get_item (some ⟨some "story", none, some "T", none, some 1, some "a", some 5, some 2⟩)
        = some ⟨none, "T", none, 1, "a", 5, 2⟩ ∧
    (⟨none, "T", none, 1, "a", 5, 2⟩ : Story).id = none ∧
    (⟨none, "T", none, 1, "a", 5, 2⟩ : Story).hn_link
        = "https://news.ycombinator.com/item?id=None" ∧
    (∀ (data : ItemRecord) (s : Story), get_item (some data) = some s → s.id = data.id) ∧
    "None".data.all (fun c => !c.isDigit) = true := by
  refine ⟨by decide, rfl, by decide, fun data s h => ?_, by decide⟩
  rw [get_item] at h
  split at h
  · exact absurd h (by simp)
  · have hs := (Option.some.injEq _ _).mp h
    subst hs
    rfl

/-- C6: `write_csv` on N stories produces exactly N + 1 CSV records: the
header row `rank,id,title,score,comments,by,created_ist,hn_link,url`
followed by one row per story in rank order under excel-dialect
(`QUOTE_MINIMAL`) quoting; re-parsing any produced record recovers
exactly the written fields — rank and the numeric fields as their decimal
strings — and a missing URL is written as the empty string. -/
theorem write_csv_round_trip (stories : List Story) :
    (write_csv stories).length = stories.length + 1 ∧
    (write_csv stories).get? 0 =
      some "rank,id,title,score,comments,by,created_ist,hn_link,url" ∧
    parseCsvStr "rank,id,title,score,comments,by,created_ist,hn_link,url" =
      csv_header_fields ∧
    (∀ (k : Nat) (hk : k < stories.length),
      (write_csv stories).get? (k + 1) =
        some (csvRecord (csv_fields (k + 1) (stories.get ⟨k, hk⟩))) ∧
      parseCsvStr (csvRecord (csv_fields (k + 1) (stories.get ⟨k, hk⟩))) =
        csv_fields (k + 1) (stories.get ⟨k, hk⟩)) ∧
    (∀ (k : Nat) (hk : k < stories.length), (stories.get ⟨k, hk⟩).url = none →
      (csv_fields (k + 1) (stories.get ⟨k, hk⟩)).get? 8 = some "") := by
  refine ⟨?_, ?_, ?_, fun k hk => ⟨?_, ?_⟩, fun k hk hu => ?_⟩
  · rw [write_csv]
    simp [csv_rows_from_length]
  · rw [write_csv]
    show some (csvRecord csv_header_fields) = _
    decide
  · rw [show ("rank,id,title,score,comments,by,created_ist,hn_link,url" : String)
        = csvRecord csv_header_fields from by decide]
    exact parseCsvStr_record _ (by decide)
  · rw [write_csv]
    show (csv_rows_from 1 stories).get? k = _
    rw [csv_rows_from_get stories 1 k hk]
    have : 1 + k = k + 1 := by omega
    rw [this]
  · exact parseCsvStr_record _ (by simp [csv_fields])
  · rw [csv_fields]
    show some (pyOrStr (stories.get ⟨k, hk⟩).url "") = some ""
    rw [hu]
    rfl

/-- Witness for C6 at a concrete two-story input whose first title needs
quoting (it contains a comma and a double quote). -/
theorem write_csv_round_trip_witness :
    ((0 : Nat) <
      ([⟨some 11, "He said \"hi\", ok", none, 5, "ann", 1000, 2⟩,
        ⟨some 12, "Plain", some "http://x/y", 3, "bob", 2000, 0⟩] : List Story).length) ∧
    parseCsvStr (csvRecord (csv_fields 1
        (⟨some 11, "He said \"hi\", ok", none, 5, "ann", 1000, 2⟩ : Story))) =
      csv_fields 1 (⟨some 11, "He said \"hi\", ok", none, 5, "ann", 1000, 2⟩ : Story) := by
  refine ⟨by decide, ?_⟩
  have h := (write_csv_round_trip
    [⟨some 11, "He said \"hi\", ok", none, 5, "ann", 1000, 2⟩,
     ⟨some 12, "Plain", some "http://x/y", 3, "bob", 2000, 0⟩]).2.2.2.1 0 (by decide)
  exact h.2

/-- C7 counterexample: for one story the Markdown file has 3 lines, not
1 + 1 = 2: line 157 writes the heading followed by a blank separator
line (`"...\n\n"`), so the file is heading, blank line, then the story
lines. -/
theorem write_md_linecount_cex :
    lineCount (write_md [⟨some 1, "T", none, 50, "a", 1000, 5⟩]) = 3 ∧
    lineCount (write_md [⟨some 1, "T", none, 50, "a", 1000, 5⟩]) ≠ 1 + 1 := by
  decide

/-- C7 amended: for every list of N stories whose titles and URLs contain
no newline character, `write_md` produces a file of exactly 2 + N lines:
the level-1 heading, one blank line, then one line per story in rank
order, each of the form
`N. [title](url) — **score points**, N comments — timestamp — [HN](hn_link)`
(with `url` falling back to the HN link when the story has no external
URL — that fallback is inside `md_body` via `pyOrStr`), and each story
line starts with its 1-based rank. -/
theorem write_md_lines (stories : List Story)
    (hok : ∀ s ∈ stories,
      '\n' ∉ s.title.data ∧ ∀ u, s.url = some u → '\n' ∉ u.data) :
    (write_md stories).data.splitOn '\n' =
      "# Top 10 New Hacker News (last 24h, IST)".data :: [] ::
        ((md_bodies_from 1 stories).map String.data ++ [[]]) ∧
    lineCount (write_md stories) = stories.length + 2 ∧
    (md_bodies_from 1 stories).length = stories.length ∧
    (∀ (rank : Nat) (s : Story), ∃ t,
      md_body rank s = (toString rank ++ ". [") ++ t) := by
  refine ⟨?_, ?_, md_bodies_length 1 stories, fun rank s => ?_⟩
  · rw [write_md_data]
    apply List.splitOn_intercalate
    · intro l hl
      rcases List.mem_cons.mp hl with rfl | hl
      · decide
      rcases List.mem_cons.mp hl with rfl | hl
      · simp
      rcases List.mem_append.mp hl with hl | hl
      · obtain ⟨x, hx, rfl⟩ := List.mem_map.mp hl
        obtain ⟨k, s, hs, rfl⟩ := md_bodies_mem _ _ _ hx
        exact md_body_no_newline k s (hok s hs).1 (hok s hs).2
      · simp only [List.mem_singleton] at hl
        subst hl
        simp
    · simp
  · rw [lineCount, write_md, String.data_append, List.count_append,
      count_md_text 1 stories hok]
    have hh : md_heading.data.count '\n' = 2 := by decide
    rw [hh]
    omega
  · refine ⟨s.title ++ "](" ++ pyOrStr s.url s.hn_link ++ ") — **" ++
      toString s.score ++ " points**, " ++ toString s.descendants ++
      " comments — " ++ s.created_at_ist ++ " — [HN](" ++ s.hn_link ++ ")", ?_⟩
    rw [md_body]
    simp [String.append_assoc]

/-- Witness for C7 at a concrete input: one newline-free story gives a
1 + 2 line file. -/
theorem write_md_lines_witness :
    lineCount (write_md [⟨some 1, "T", none, 50, "a", 1000, 5⟩]) = 1 + 2 :=
  (write_md_lines [⟨some 1, "T", none, 50, "a", 1000, 5⟩] (by
    intro s hs
    rcases List.mem_cons.mp hs with rfl | h
    · exact ⟨by decide, fun u hu => Option.noConfusion hu⟩
    · simp at h)).2.1

/-- Witness for C10: the id pass-through applied at the concrete
id-less record. -/
theorem get_item_missing_id_witness :
    (⟨none, "T", none, 1, "a", 5, 2⟩ : Story).id =
      (⟨some "story", none, some "T", none, some 1, some "a", some 5, some 2⟩ : ItemRecord).id ∧
    get_item (some ⟨some "story", none, some "T", none, some 1, some "a", some 5, some 2⟩)
        = some ⟨none, "T", none, 1, "a", 5, 2⟩ :=
  ⟨get_item_missing_id.2.2.2.1 _ _ (by decide), get_item_missing_id.1⟩

end HNTop10
